import Mathlib

/-! # Consumer API correlation/authorization resolver — verification

Verification of the correlation/authorization resolver of the
`consumer_api_core` repository (a consumer-facing adapter over a workflow
engine).  The TypeScript sources are shallowly embedded: entity stores
queried through the datastore service become explicit list-valued
environments, `async` functions throwing errors become functions into
`Except ApiError`, the publish/subscribe side effects of `finishUserTask`
become an explicit event trace, and the possibly divergent recursions
(sub-process discovery over instance/definition graphs, which the source
runs without a cycle guard) take an explicit fuel argument, `none`
standing for "did not terminate within the given fuel". -/

/-- The error taxonomy of `@essential-projects/errors_ts` as used by the
adapter, plus `jsTypeError` standing for a raw JavaScript `TypeError`
(e.g. reading a property of `undefined`, or `Object.keys(null)`), which is
not one of the documented HTTP error kinds.  Error message strings are
elided. -/
inductive ApiError where
  | badRequest
  | notFound
  | forbidden
  | unprocessableEntity
  | internalServerError
  | jsTypeError
deriving DecidableEq, Repr

/-- Untyped JavaScript values, as far as the payload validation of
`finishUserTask` observes them: `undefined`, `null`, primitives, arrays
and plain objects (ordered field lists). -/
inductive JsValue where
  | undefined
  | null
  | bool (b : Bool)
  | num (n : Int)
  | str (s : String)
  | arr (elems : List JsValue)
  | obj (fields : List (String × JsValue))

/-- JavaScript `typeof`. -/
def jsTypeof : JsValue → String
  | .undefined => "undefined"
  | .null => "object"
  | .bool _ => "boolean"
  | .num _ => "number"
  | .str _ => "string"
  | .arr _ => "object"
  | .obj _ => "object"

/-- JavaScript `Array.isArray`. -/
def jsIsArray : JsValue → Bool
  | .arr _ => true
  | _ => false

/-- The `undefined` test (`=== undefined`). -/
def JsValue.isUndefined : JsValue → Bool
  | .undefined => true
  | _ => false

/-- JavaScript `Object.keys`: throws a `TypeError` on `null`/`undefined`,
returns the own enumerable keys of an object, the indices of an array, and
the empty list for the remaining (boxed) primitives. -/
def jsObjectKeys : JsValue → Except ApiError (List String)
  | .undefined => .error .jsTypeError
  | .null => .error .jsTypeError
  | .obj fields => .ok (fields.map Prod.fst)
  | .arr elems => .ok ((List.range elems.length).map toString)
  | _ => .ok []

/-- JavaScript property read `v.name`: a `TypeError` on `null`/`undefined`,
the field value (or `undefined`) on an object, `undefined` on the other
values. -/
def jsGetProp (v : JsValue) (name : String) : Except ApiError JsValue :=
  match v with
  | .undefined => .error .jsTypeError
  | .null => .error .jsTypeError
  | .obj fields =>
      match fields.find? (fun f => f.fst == name) with
      | some f => .ok f.snd
      | none => .ok .undefined
  | _ => .ok .undefined

/-- Field lookup inside a concrete object literal (the value of the named
field, `undefined` when absent). -/
def jsField (fields : List (String × JsValue)) (name : String) : JsValue :=
  match fields.find? (fun f => f.fst == name) with
  | some f => f.snd
  | none => .undefined

/-- JavaScript `Object.assign(target, src)` on two plain objects: fields of
`target` keep their position (their value updated when `src` also has the
key), fields of `src` not present in `target` are appended. -/
def jsAssignObj (target src : List (String × JsValue)) : List (String × JsValue) :=
  (target.map fun kv =>
    match src.find? (fun s => s.fst == kv.fst) with
    | some s => (kv.fst, s.snd)
    | none => kv) ++
  src.filter (fun s => (target.find? (fun kv => kv.fst == s.fst)).isNone)

/-! ## Lanes (bpmn-moddle shape)

A moddle lane has an `id`, an optional `name`, an optional `flowNodeRef`
array (the adapter only reads the `id` of each referenced element, so a
reference is represented by that id), and an optional `childLaneSet`.
A moddle lane set is represented by its `lanes` array, the only field the
adapter reads. -/

inductive Lane where
  | mk (id : String) (name : Option String) (flowNodeRef : Option (List String))
       (childLaneSet : Option (List Lane))

def Lane.id : Lane → String
  | .mk i _ _ _ => i

def Lane.name : Lane → Option String
  | .mk _ n _ _ => n

def Lane.flowNodeRef : Lane → Option (List String)
  | .mk _ _ r _ => r

def Lane.childLaneSet : Lane → Option (List Lane)
  | .mk _ _ _ c => c

/-- `_getClosestLaneIdToElement` (process_engine_adapter.ts): iterate over
the lanes of a lane set; a lane with a child lane set makes the function
return the recursive lookup on that child set immediately; otherwise a
lane with no `flowNodeRef` is skipped, and a lane whose `flowNodeRef`
contains the element id is returned.  Falling off the loop yields
`undefined`. -/
def getClosestLaneIdToElement : List Lane → String → Option String
  | [], _ => none
  | .mk i _ r c :: rest, elementId =>
      match c with
      | some child => getClosestLaneIdToElement child elementId
      | none =>
          match r with
          | none => getClosestLaneIdToElement rest elementId
          | some refs =>
              if refs.any (fun fid => fid == elementId) then some i
              else getClosestLaneIdToElement rest elementId

/-- A root element of the parsed BPMN definitions: its `$type` and its
optional `laneSets` array (each lane set represented by its `lanes`). -/
structure RootElement where
  type : String
  laneSets : Option (List (List Lane))

/-- `_getLaneIdForElement`: walk all `bpmn:Process` root elements and
their lane sets, returning the first defined closest-lane id. -/
def getLaneIdForElement (rootElements : List RootElement) (elementId : String) :
    Option String :=
  rootElements.findSome? fun rootElement =>
    if rootElement.type == "bpmn:Process" then
      match rootElement.laneSets with
      | none => none
      | some laneSets =>
          laneSets.findSome? fun laneSet => getClosestLaneIdToElement laneSet elementId
    else none

/-- `_getLanesThatCanBeAccessed`, the loop over a `lanes` array: a lane
whose `name` is `undefined` or `""` is skipped (with a warning); a lane
whose name the identity holds no claim for is skipped; an accessible lane
is collected, followed by the accessible lanes of its child lane set, and
the iteration continues with the remaining lanes. -/
def getLanesThatCanBeAccessedFrom (hasClaim : String → Bool) :
    List Lane → List Lane
  | [] => []
  | .mk i n r c :: rest =>
      match n with
      | none => getLanesThatCanBeAccessedFrom hasClaim rest
      | some laneName =>
          if laneName = "" then getLanesThatCanBeAccessedFrom hasClaim rest
          else if hasClaim laneName then
            .mk i n r c ::
              ((match c with
                | none => []
                | some childLanes => getLanesThatCanBeAccessedFrom hasClaim childLanes) ++
               getLanesThatCanBeAccessedFrom hasClaim rest)
          else getLanesThatCanBeAccessedFrom hasClaim rest

/-- `_getLanesThatCanBeAccessed`: an `undefined` lane set yields `[]`. -/
def getLanesThatCanBeAccessed (hasClaim : String → Bool)
    (laneSet : Option (List Lane)) : List Lane :=
  match laneSet with
  | none => []
  | some lanes => getLanesThatCanBeAccessedFrom hasClaim lanes

/-- All lanes of a lane forest (each lane together with the lanes of its
child lane set, recursively); used to phrase invariants over the lane
tree. -/
def lanesOfForest : List Lane → List Lane
  | [] => []
  | .mk i n r c :: rest =>
      .mk i n r c ::
        ((match c with
          | none => []
          | some childLanes => lanesOfForest childLanes) ++ lanesOfForest rest)

/-- All lanes of an optional lane set. -/
def lanesOfTree (laneSet : Option (List Lane)) : List Lane :=
  match laneSet with
  | none => []
  | some lanes => lanesOfForest lanes

/-! ## The datastore-backed adapter (`ConsumerApiProcessEngineAdapter`)

Entities reached through the datastore service.  `type` attributes hold
the `BpmnType` enumeration value for call activities; the adapter compares
them for equality only, so the enumeration is represented by a string
constant. -/

def BpmnType.callActivity : String := "bpmn:CallActivity"

/-- A `Process` entity: an executed process instance.  `key` is the entity
key, `processDefKey` stands for the expanded `processDef.key`. -/
structure ProcessEntity where
  id : String
  key : String
  correlationId : String
  isSubProcess : Bool
  callerId : Option String
  processDefKey : String
deriving DecidableEq, Repr

/-- A `NodeInstance` entity (`process` is the owning process instance id). -/
structure NodeInstanceEntity where
  id : String
  process : String
  type : String
deriving DecidableEq, Repr

/-- A `NodeDef` entity, as queried per process-model key and type;
`subProcessKey` is the model called by a call activity. -/
structure NodeDefEntity where
  key : String
  processDefKey : String
  type : String
  subProcessKey : String
deriving DecidableEq, Repr

/-- A form field of a user task's node definition extensions. -/
structure NodeDefFormField where
  id : String
  label : String
  type : String
  defaultValue : String
deriving DecidableEq, Repr

/-- A `ProcessDef` entity.  Its BPMN XML is represented already parsed
(`_getDefinitionsFromProcessModel` feeds the XML through bpmn-moddle; the
parse is an external concern) as the `rootElements` of the definitions. -/
structure ProcessDefEntity where
  key : String
  isExecutable : Bool
  rootElements : List RootElement

/-- A `UserTask` entity (with `processToken`, `nodeDef` and `process`
expanded).  `formFields` stands for `nodeDef.extensions.formFields`; the
value `none` covers missing/`null` extensions as well as a missing
`formFields` array — the adapter treats all of these alike. -/
structure UserTaskEntity where
  id : String
  key : String
  processId : String
  processDefKey : String
  state : String
  formFields : Option (List NodeDefFormField)

/-- The adapter's world: the entity collections of the datastore and the
claims of the identity on whose behalf a request runs
(`consumerApiIamService.hasClaim`). -/
structure AdapterEnv where
  processes : List ProcessEntity
  nodeInstances : List NodeInstanceEntity
  nodeDefs : List NodeDefEntity
  processDefs : List ProcessDefEntity
  userTasks : List UserTaskEntity
  identityClaims : List String

/-- `consumerApiIamService.hasClaim` for the request identity. -/
def AdapterEnv.hasClaim (env : AdapterEnv) (claim : String) : Bool :=
  env.identityClaims.contains claim

/-- `_getProcessModelByKey`: `findOne` on `ProcessDef` by key, NotFound
when absent. -/
def getProcessModelByKey (env : AdapterEnv) (processModelKey : String) :
    Except ApiError ProcessDefEntity :=
  match env.processDefs.find? (fun pd => pd.key == processModelKey) with
  | some processDef => .ok processDef
  | none => .error .notFound

/-- The lane walk of `_getIdsOfLanesThatCanBeAccessed`: for every
`bpmn:Process` root element that has lane sets, concatenate the accessible
lanes of each lane set. -/
def accessibleLanesOfRootElements (hasClaim : String → Bool)
    (rootElements : List RootElement) : List Lane :=
  (rootElements.map fun rootElement =>
    if rootElement.type == "bpmn:Process" then
      match rootElement.laneSets with
      | none => []
      | some laneSets =>
          (laneSets.map (getLanesThatCanBeAccessedFrom hasClaim)).flatten
    else []).flatten

/-- `_getIdsOfLanesThatCanBeAccessed`: resolve the process definition,
walk its lane sets and return the ids of the accessible lanes. -/
def getIdsOfLanesThatCanBeAccessed (env : AdapterEnv) (processModelKey : String) :
    Except ApiError (List String) :=
  match getProcessModelByKey env processModelKey with
  | .error e => .error e
  | .ok processModel =>
      .ok ((accessibleLanesOfRootElements env.hasClaim processModel.rootElements).map Lane.id)

/-- `_getMainProcessInstanceIdFromCorrelation`: query all `Process`
entities with the given `correlationId`; NotFound when there is none at
all; otherwise `find` the one with `isSubProcess === false` and read its
`id` — when every match is a sub-process, `find` yields `undefined` and
the `.id` read raises a `TypeError`. -/
def getMainProcessInstanceIdFromCorrelation (env : AdapterEnv)
    (correlationId : String) : Except ApiError String :=
  let matchingProcesses := env.processes.filter (fun p => p.correlationId == correlationId)
  if matchingProcesses.isEmpty then .error .notFound
  else
    match matchingProcesses.find? (fun p => p.isSubProcess == false) with
    | some mainProcess => .ok mainProcess.id
    | none => .error .jsTypeError

/-- `_getProcessInstanceById`: `getById` on `Process`, NotFound when
absent. -/
def getProcessInstanceById (env : AdapterEnv) (processInstanceId : String) :
    Except ApiError ProcessEntity :=
  match env.processes.find? (fun p => p.id == processInstanceId) with
  | some process => .ok process
  | none => .error .notFound

/-- `_getCallActivitiesForProcessInstance`: all `NodeInstance` entities of
the given process instance whose type is the call-activity type. -/
def getCallActivitiesForProcessInstance (env : AdapterEnv)
    (processInstanceId : String) : List NodeInstanceEntity :=
  env.nodeInstances.filter
    (fun n => n.process == processInstanceId && n.type == BpmnType.callActivity)

/-- `_getCalledProcessesViaCallerIds`: the `Process` entities whose
`callerId` equals one of the given caller ids (empty input short-circuits
to the empty result). -/
def getCalledProcessesViaCallerIds (env : AdapterEnv) (callerIds : List String) :
    List ProcessEntity :=
  if callerIds.isEmpty then []
  else
    env.processes.filter fun p =>
      match p.callerId with
      | some callerId => callerIds.contains callerId
      | none => false

/-- `_getSubProcessInstances`: collect the processes called from the call
activities of the parent instance, then recursively the sub-processes of
each of them, appending each sub-tree after the direct children.  The
source recursion carries no cycle guard; the fuel argument makes it total,
`none` meaning the recursion exceeded the fuel. -/
def getSubProcessInstances (env : AdapterEnv) :
    Nat → String → Option (List ProcessEntity)
  | 0, _ => none
  | fuel + 1, parentProcessInstanceId =>
      let nodes := getCallActivitiesForProcessInstance env parentProcessInstanceId
      let nodeIds := nodes.map NodeInstanceEntity.id
      let processes := getCalledProcessesViaCallerIds env nodeIds
      let subResults := processes.foldr
        (fun process acc =>
          match getSubProcessInstances env fuel process.id, acc with
          | some subProcesses, some r => some (subProcesses ++ r)
          | _, _ => none)
        (some [])
      match subResults with
      | none => none
      | some subProcesses => some (processes ++ subProcesses)

/-- `_getProcessInstancesForCorrelation`: the main instance of the
correlation followed by all discovered sub-process instances. -/
def getProcessInstancesForCorrelation (env : AdapterEnv) (fuel : Nat)
    (correlationId : String) : Option (Except ApiError (List ProcessEntity)) :=
  match getMainProcessInstanceIdFromCorrelation env correlationId with
  | .error e => some (.error e)
  | .ok mainProcessInstanceId =>
      match getProcessInstanceById env mainProcessInstanceId with
      | .error e => some (.error e)
      | .ok mainProcessInstance =>
          match getSubProcessInstances env fuel mainProcessInstanceId with
          | none => none
          | some subProcessInstances => some (.ok (mainProcessInstance :: subProcessInstances))

/-- `_getNodesByTypeForProcessModel`: the `NodeDef` entities of a process
model with the given type. -/
def getNodesByTypeForProcessModel (env : AdapterEnv) (processModelKey : String)
    (nodeType : String) : List NodeDefEntity :=
  env.nodeDefs.filter (fun n => n.processDefKey == processModelKey && n.type == nodeType)

/-- `_getSubProcessModelKeys`: the models called (transitively) from the
call activities of a process model.  Like the instance recursion, the
source has no cycle guard, hence the fuel. -/
def getSubProcessModelKeys (env : AdapterEnv) :
    Nat → String → Option (List String)
  | 0, _ => none
  | fuel + 1, processModelKey =>
      let callActivities := getNodesByTypeForProcessModel env processModelKey BpmnType.callActivity
      let directKeys := callActivities.map NodeDefEntity.subProcessKey
      let subResults := callActivities.foldr
        (fun callActivity acc =>
          match getSubProcessModelKeys env fuel callActivity.subProcessKey, acc with
          | some subKeys, some r => some (subKeys ++ r)
          | _, _ => none)
        (some [])
      match subResults with
      | none => none
      | some subKeys => some (directKeys ++ subKeys)

/-- `_getProcessModelKeysForCorrelation`: the main instance's definition
key followed by the transitively called model keys (note the source passes
the entity `key`, not `processDef.key`, into the recursion). -/
def getProcessModelKeysForCorrelation (env : AdapterEnv) (fuel : Nat)
    (correlationId : String) : Option (Except ApiError (List String)) :=
  match getMainProcessInstanceIdFromCorrelation env correlationId with
  | .error e => some (.error e)
  | .ok mainProcessInstanceId =>
      match getProcessInstanceById env mainProcessInstanceId with
      | .error e => some (.error e)
      | .ok mainProcessInstance =>
          match getSubProcessModelKeys env fuel mainProcessInstance.key with
          | none => none
          | some subProcessModelKeys =>
              some (.ok (mainProcessInstance.processDefKey :: subProcessModelKeys))

/-- `_getUserTasksForProcessInstance`: the suspended (`state = 'wait'`)
`UserTask` entities of a process instance. -/
def getUserTasksForProcessInstance (env : AdapterEnv) (processInstanceId : String) :
    List UserTaskEntity :=
  env.userTasks.filter (fun ut => ut.processId == processInstanceId && ut.state == "wait")

/-- `_getAccessibleUserTasksForProcessInstance`: the suspended user tasks
of the instance, gated by the accessible lanes of its process model
(Forbidden when none is accessible) and filtered down to the tasks whose
flow node resolves to an accessible lane.  The source reads the definitions
from the already-expanded `processInstance.processDef`; here that is the
same definition the lane gate resolved by key. -/
def getAccessibleUserTasksForProcessInstance (env : AdapterEnv)
    (processInstance : ProcessEntity) : Except ApiError (List UserTaskEntity) :=
  let userTasks := getUserTasksForProcessInstance env processInstance.id
  match getIdsOfLanesThatCanBeAccessed env processInstance.processDefKey with
  | .error e => .error e
  | .ok accessibleLaneIds =>
      if accessibleLaneIds.isEmpty then .error .forbidden
      else
        match getProcessModelByKey env processInstance.processDefKey with
        | .error e => .error e
        | .ok processDef =>
            .ok (userTasks.filter fun userTask =>
              match getLaneIdForElement processDef.rootElements userTask.key with
              | some laneId => accessibleLaneIds.contains laneId
              | none => false)

/-- The aggregation loop of `_getUserTasksForCorrelation`: per process
instance the accessible user tasks are collected; a ForbiddenError for an
instance is swallowed (that instance contributes nothing); every other
error propagates and aborts the whole aggregation. -/
def getUserTasksForInstances (env : AdapterEnv) :
    List ProcessEntity → Except ApiError (List UserTaskEntity)
  | [] => .ok []
  | processInstance :: rest =>
      match getAccessibleUserTasksForProcessInstance env processInstance with
      | .ok userTasksForProcessInstance =>
          match getUserTasksForInstances env rest with
          | .ok more => .ok (userTasksForProcessInstance ++ more)
          | .error e => .error e
      | .error .forbidden => getUserTasksForInstances env rest
      | .error e => .error e

/-- `_getUserTasksForCorrelation`: resolve the instances of the
correlation, then aggregate their accessible user tasks. -/
def getUserTasksForCorrelationEntities (env : AdapterEnv) (fuel : Nat)
    (correlationId : String) : Option (Except ApiError (List UserTaskEntity)) :=
  match getProcessInstancesForCorrelation env fuel correlationId with
  | none => none
  | some (.error e) => some (.error e)
  | some (.ok processInstances) => some (getUserTasksForInstances env processInstances)

/-- A form field of the public contract, as produced by
`_getUserTaskConfigFromUserTaskData`. -/
structure UserTaskFormField where
  id : String
  label : String
  type : String
  default_value : String
deriving DecidableEq, Repr

/-- `_getUserTaskConfigFromUserTaskData`: UnprocessableEntity when the
task's node definition has no form fields at all, otherwise the projected
form fields. -/
def getUserTaskConfigFromUserTaskData (userTask : UserTaskEntity) :
    Except ApiError (List UserTaskFormField) :=
  match userTask.formFields with
  | none => .error .unprocessableEntity
  | some [] => .error .unprocessableEntity
  | some formFields =>
      .ok (formFields.map fun f =>
        { id := f.id, label := f.label, type := f.type, default_value := f.defaultValue })

/-- A user task of the public contract (adapter shape). -/
structure ConsumerUserTask where
  key : String
  id : String
  process_instance_id : String
  data : List UserTaskFormField
deriving DecidableEq, Repr

/-- `_userTaskEntitiesToUserTaskList`: project every entity, failing as a
whole when any projection fails. -/
def userTaskEntitiesToUserTaskList :
    List UserTaskEntity → Except ApiError (List ConsumerUserTask)
  | [] => .ok []
  | userTask :: rest =>
      match getUserTaskConfigFromUserTaskData userTask with
      | .error e => .error e
      | .ok config =>
          match userTaskEntitiesToUserTaskList rest with
          | .error e => .error e
          | .ok more =>
              .ok ({ key := userTask.key, id := userTask.id,
                     process_instance_id := userTask.processId, data := config } :: more)

/-- The loop of `getUserTasksForCorrelation` that unions the accessible
lane ids over all process models of the correlation (errors of the
per-model resolution propagate). -/
def collectAccessibleLaneIds (env : AdapterEnv) :
    List String → Except ApiError (List String)
  | [] => .ok []
  | processModelKey :: rest =>
      match getIdsOfLanesThatCanBeAccessed env processModelKey with
      | .error e => .error e
      | .ok laneIds =>
          match collectAccessibleLaneIds env rest with
          | .error e => .error e
          | .ok more => .ok (laneIds ++ more)

/-- `getUserTasksForCorrelation` (adapter): resolve the process models of
the correlation, union their accessible lanes, fail with Forbidden when
the union is empty, otherwise aggregate and project the user tasks. -/
def getUserTasksForCorrelation (env : AdapterEnv) (fuel : Nat)
    (correlationId : String) : Option (Except ApiError (List ConsumerUserTask)) :=
  match getProcessModelKeysForCorrelation env fuel correlationId with
  | none => none
  | some (.error e) => some (.error e)
  | some (.ok processModelsInCorrelation) =>
      match collectAccessibleLaneIds env processModelsInCorrelation with
      | .error e => some (.error e)
      | .ok accessibleLaneIds =>
          if accessibleLaneIds.isEmpty then some (.error .forbidden)
          else
            match getUserTasksForCorrelationEntities env fuel correlationId with
            | none => none
            | some (.error e) => some (.error e)
            | some (.ok userTasks) => some (userTaskEntitiesToUserTaskList userTasks)

/-! ## The newer `ConsumerApiService` (persistence/facade binding)

The service resolves user tasks from suspended flow-node instances and
process models read through `processModelPersistance` /
`flowNodeInstancePersistance`, and completes user tasks through the event
aggregator. -/

/-- What the service observes of a flow node of a process model through
the process-model facade: `instanceof Model.Activities.UserTask` and
membership in `facade.getEndEvents()` become a kind tag. -/
inductive FlowNodeKind where
  | userTask
  | endEvent
  | other
deriving DecidableEq, Repr

/-- A form field of a user task definition (`Model.Types.FormField`). -/
structure FormFieldDef where
  id : String
  label : String
  type : String
  defaultValue : String
  preferredControl : Option String
deriving DecidableEq, Repr

/-- A flow node of a process model, as read through the facade. -/
structure FlowNodeDef where
  id : String
  kind : FlowNodeKind
  formFields : List FormFieldDef
deriving DecidableEq, Repr

/-- A process model held by `processModelPersistance`. -/
structure ProcessModelDef where
  id : String
  flowNodes : List FlowNodeDef
deriving DecidableEq, Repr

/-- A process token: `caller` is set on tokens of called sub-processes;
payloads are taken to be plain JSON objects (ordered field lists), which
is what `Object.assign` merges. -/
structure ProcessToken where
  processModelId : String
  processInstanceId : String
  caller : Option String
  payload : List (String × JsValue)

/-- A flow-node instance held by `flowNodeInstancePersistance`;
`suspended` distinguishes the instances returned by the
`querySuspendedBy*` queries. -/
structure FlowNodeInstance where
  flowNodeId : String
  correlationId : String
  suspended : Bool
  token : ProcessToken

/-- The service's world: the process-model store and the flow-node
instance store. -/
structure ServiceEnv where
  processModels : List ProcessModelDef
  flowNodeInstances : List FlowNodeInstance

/-- `processModelPersistance.getProcessModelById`. -/
def getProcessModelById (env : ServiceEnv) (processModelId : String) :
    Except ApiError ProcessModelDef :=
  match env.processModels.find? (fun pm => pm.id == processModelId) with
  | some processModel => .ok processModel
  | none => .error .notFound

/-- `flowNodeInstancePersistance.queryByCorrelation`. -/
def queryByCorrelation (env : ServiceEnv) (correlationId : String) :
    List FlowNodeInstance :=
  env.flowNodeInstances.filter (fun fi => fi.correlationId == correlationId)

/-- `flowNodeInstancePersistance.querySuspendedByCorrelation`. -/
def querySuspendedByCorrelation (env : ServiceEnv) (correlationId : String) :
    List FlowNodeInstance :=
  env.flowNodeInstances.filter (fun fi => fi.correlationId == correlationId && fi.suspended)

/-- `processModelFacade.getEndEvents`. -/
def getEndEvents (processModel : ProcessModelDef) : List FlowNodeDef :=
  processModel.flowNodes.filter (fun fn => fn.kind == .endEvent)

/-- `getProcessResultForCorrelation`: take all flow-node instances of the
correlation, keep those that are end events of the requested process
model, whose token has no `caller` and whose token belongs to the
requested model, and merge their token payloads with `Object.assign` into
one result object. -/
def getProcessResultForCorrelation (env : ServiceEnv) (correlationId : String)
    (processModelId : String) : Except ApiError (List (String × JsValue)) :=
  match getProcessModelById env processModelId with
  | .error e => .error e
  | .ok processModel =>
      let endEvents := getEndEvents processModel
      let flowNodeInstances := queryByCorrelation env correlationId
      let endEventInstances := flowNodeInstances.filter fun flowNodeInstance =>
        endEvents.any (fun endEvent => endEvent.id == flowNodeInstance.flowNodeId) &&
        flowNodeInstance.token.caller.isNone &&
        flowNodeInstance.token.processModelId == processModelId
      .ok (endEventInstances.foldl
        (fun correlationResult endEventInstance =>
          jsAssignObj correlationResult endEventInstance.token.payload) [])

/-- `_convertToConsumerApiFormField`: copy of the definition's fields. -/
def convertToConsumerApiFormField (formField : FormFieldDef) : FormFieldDef :=
  { id := formField.id, label := formField.label, type := formField.type,
    defaultValue := formField.defaultValue, preferredControl := formField.preferredControl }

/-- A user task of the public contract (service shape). -/
structure ConsumerApiUserTask where
  key : String
  id : String
  processInstanceId : String
  formFields : List FormFieldDef
  payload : List (String × JsValue)

/-- `_convertSuspendedFlowNodeToUserTask`: resolve the instance's process
model, look its flow node up through the facade; a node that is not a
`UserTask` (or is absent) converts to `undefined`; a user task is
projected into the public shape. -/
def convertSuspendedFlowNodeToUserTask (env : ServiceEnv)
    (flowNodeInstance : FlowNodeInstance) :
    Except ApiError (Option ConsumerApiUserTask) :=
  match getProcessModelById env flowNodeInstance.token.processModelId with
  | .error e => .error e
  | .ok processModel =>
      match processModel.flowNodes.find? (fun fn => fn.id == flowNodeInstance.flowNodeId) with
      | some userTask =>
          if userTask.kind == .userTask then
            .ok (some
              { key := flowNodeInstance.flowNodeId,
                id := flowNodeInstance.flowNodeId,
                processInstanceId := flowNodeInstance.token.processInstanceId,
                formFields := userTask.formFields.map convertToConsumerApiFormField,
                payload := flowNodeInstance.token.payload })
          else .ok none
      | none => .ok none

/-- The loop of `getUserTasksForProcessModelInCorrelation`: skip instances
of other process models, convert the rest, skip the conversions that
return `undefined`. -/
def convertSuspendedFlowNodesForProcessModel (env : ServiceEnv)
    (processModelId : String) :
    List FlowNodeInstance → Except ApiError (List ConsumerApiUserTask)
  | [] => .ok []
  | flowNodeInstance :: rest =>
      if flowNodeInstance.token.processModelId != processModelId then
        convertSuspendedFlowNodesForProcessModel env processModelId rest
      else
        match convertSuspendedFlowNodeToUserTask env flowNodeInstance with
        | .error e => .error e
        | .ok none => convertSuspendedFlowNodesForProcessModel env processModelId rest
        | .ok (some userTask) =>
            match convertSuspendedFlowNodesForProcessModel env processModelId rest with
            | .error e => .error e
            | .ok more => .ok (userTask :: more)

/-- `getUserTasksForProcessModelInCorrelation` (service): the suspended
flow-node instances of the correlation that belong to the process model,
converted to the public user-task shape. -/
def getUserTasksForProcessModelInCorrelation (env : ServiceEnv)
    (processModelId : String) (correlationId : String) :
    Except ApiError (List ConsumerApiUserTask) :=
  convertSuspendedFlowNodesForProcessModel env processModelId
    (querySuspendedByCorrelation env correlationId)

/-- `_getUserTaskResultFromUserTaskConfig`: BadRequest when the finished
task is `undefined`, its `formFields` is `undefined`, not of object type,
or an array (one short-circuited disjunction), then BadRequest when
`Object.keys(formFields)` is empty; note `Object.keys` itself raises a
`TypeError` when `formFields` is `null`, which passes the first check. -/
def getUserTaskResultFromUserTaskConfig (finishedTask : JsValue) :
    Except ApiError JsValue :=
  match finishedTask with
  | .undefined => .error .badRequest
  | _ =>
      match jsGetProp finishedTask "formFields" with
      | .error e => .error e
      | .ok formFields =>
          if formFields.isUndefined || jsTypeof formFields != "object" ||
              jsIsArray formFields then
            .error .badRequest
          else
            match jsObjectKeys formFields with
            | .error e => .error e
            | .ok keys =>
                if keys.length == 0 then .error .badRequest
                else .ok formFields

/-- One observable interaction with the event aggregator. -/
inductive EventAction where
  | subscribeOnce (channel : String)
  | publish (channel : String)
deriving DecidableEq, Repr

/-- `finishUserTask` (service): re-resolve the visible user tasks of the
(process model, correlation) pair, NotFound when the task id is not among
them, validate the result payload, then — inside the returned promise —
subscribe once to the task's `finished` channel and publish on its
`finish` channel.  The second component is the trace of event-aggregator
interactions, in order. -/
def finishUserTask (env : ServiceEnv) (processModelId : String)
    (correlationId : String) (userTaskId : String) (userTaskResult : JsValue) :
    Except ApiError Unit × List EventAction :=
  match getUserTasksForProcessModelInCorrelation env processModelId correlationId with
  | .error e => (.error e, [])
  | .ok userTasks =>
      match userTasks.find? (fun task => task.key == userTaskId) with
      | none => (.error .notFound, [])
      | some userTask =>
          match getUserTaskResultFromUserTaskConfig userTaskResult with
          | .error e => (.error e, [])
          | .ok _ =>
              (.ok (),
               [.subscribeOnce ("/processengine/node/" ++ userTask.id ++ "/finished"),
                .publish ("/processengine/node/" ++ userTask.id ++ "/finish")])

/-! ## Reachability along the call-activity graph

`childProcessInstances` is the one-level discovery step of
`_getSubProcessInstances`; `ReachesInstance` is its transitive closure,
the set of "transitively discovered sub-process instances" of a parent. -/

/-- The direct sub-process instances of a parent instance: the processes
whose `callerId` is one of the parent's call-activity node-instance ids. -/
def childProcessInstances (env : AdapterEnv) (parentProcessInstanceId : String) :
    List ProcessEntity :=
  getCalledProcessesViaCallerIds env
    ((getCallActivitiesForProcessInstance env parentProcessInstanceId).map
      NodeInstanceEntity.id)

/-- Transitive discovery along the call-activity graph. -/
inductive ReachesInstance (env : AdapterEnv) : String → ProcessEntity → Prop
  | direct {parentId p} : p ∈ childProcessInstances env parentId →
      ReachesInstance env parentId p
  | step {parentId p q} : p ∈ childProcessInstances env parentId →
      ReachesInstance env p.id q → ReachesInstance env parentId q

/-! ## Concrete environments used by witnesses and counterexamples -/

/-- A correlation with one process model whose single lane requires the
`admin` claim, requested by an identity holding no claims. -/
def adapterEnvC2 : AdapterEnv :=
  { processes := [⟨"p1", "pmA", "c1", false, none, "pmA"⟩],
    nodeInstances := [],
    nodeDefs := [],
    processDefs := [⟨"pmA", true,
      [⟨"bpmn:Process", some [[Lane.mk "L1" (some "admin") none none]]⟩]⟩],
    userTasks := [],
    identityClaims := [] }

/-- A correlation whose only process instance is a sub-process
(`isSubProcess = true`). -/
def adapterEnvC4 : AdapterEnv :=
  { processes := [⟨"p1", "k1", "c1", true, some "x", "pm1"⟩],
    nodeInstances := [], nodeDefs := [], processDefs := [], userTasks := [],
    identityClaims := [] }

/-- A process instance whose model's lanes the identity cannot access. -/
def processC6a : ProcessEntity := ⟨"pi1", "k1", "c1", false, none, "pm"⟩

def adapterEnvC6a : AdapterEnv :=
  { processes := [processC6a],
    nodeInstances := [], nodeDefs := [],
    processDefs := [⟨"pm", true,
      [⟨"bpmn:Process", some [[Lane.mk "L" (some "x") none none]]⟩]⟩],
    userTasks := [], identityClaims := [] }

/-- A process instance whose process definition is missing from the store,
so that its lane resolution fails with NotFound (not Forbidden). -/
def processC6b : ProcessEntity := ⟨"pi2", "k2", "c2", false, none, "pmMissing"⟩

def adapterEnvC6b : AdapterEnv :=
  { processes := [processC6b],
    nodeInstances := [], nodeDefs := [], processDefs := [],
    userTasks := [], identityClaims := [] }

/-- The main instance of the example correlation: two call activities, one
of which spawns a sub-instance that itself spawns a nested one. -/
def mainC5 : ProcessEntity := ⟨"m", "mk", "corr", false, none, "pmM"⟩

def subC5a : ProcessEntity := ⟨"p1", "k1", "corr", true, some "ca1", "pm1"⟩

def subC5b : ProcessEntity := ⟨"p2", "k2", "corr", true, some "ca2", "pm2"⟩

def subC5c : ProcessEntity := ⟨"p3", "k3", "corr", true, some "ca3", "pm3"⟩

def adapterEnvC5 : AdapterEnv :=
  { processes := [mainC5, subC5a, subC5b, subC5c],
    nodeInstances := [⟨"ca1", "m", BpmnType.callActivity⟩,
                      ⟨"ca2", "m", BpmnType.callActivity⟩,
                      ⟨"ca3", "p1", BpmnType.callActivity⟩],
    nodeDefs := [], processDefs := [], userTasks := [],
    identityClaims := [] }

/-- A rank function witnessing that the example call-activity graph is
acyclic. -/
def rankC5 : String → Nat :=
  fun pid => if pid = "m" then 2 else if pid = "p1" then 1 else 0

/-- A process model with one user task carrying one form field, and one
suspended instance of that task in correlation `c`. -/
def userTaskFlowNodeExample : FlowNodeDef :=
  ⟨"ut1", .userTask, [⟨"f1", "Field 1", "string", "", none⟩]⟩

def serviceEnvExample : ServiceEnv :=
  { processModels := [⟨"pm", [userTaskFlowNodeExample]⟩],
    flowNodeInstances := [⟨"ut1", "c", true, ⟨"pm", "pi", none, []⟩⟩] }

/-- The public projection of the suspended user task of
`serviceEnvExample`. -/
def consumerUserTaskExample : ConsumerApiUserTask :=
  { key := "ut1", id := "ut1", processInstanceId := "pi",
    formFields := [⟨"f1", "Field 1", "string", "", none⟩],
    payload := [] }

/-- A flow-node instance store restricted to the instances whose token has
no caller. -/
def dropCallerfulInstances (env : ServiceEnv) : ServiceEnv :=
  { env with flowNodeInstances :=
      env.flowNodeInstances.filter (fun fi => fi.token.caller.isNone) }

/-- A correlation with three instances of end event `e1`, one of them
carrying a caller. -/
def serviceEnvC9 : ServiceEnv :=
  { processModels := [⟨"pm", [⟨"e1", .endEvent, []⟩]⟩],
    flowNodeInstances :=
      [⟨"e1", "c", false, ⟨"pm", "pi1", none, [("a", .num 1)]⟩⟩,
       ⟨"e1", "c", false, ⟨"pm", "pi2", none, [("b", .num 2)]⟩⟩,
       ⟨"e1", "c", false, ⟨"pm", "pi3", some "x", [("z", .num 9)]⟩⟩] }

/-! ## Helper lemmas -/

/-- Unfolding lemma for the accessible-lane recursion on `[]`. -/
theorem getLanesThatCanBeAccessedFrom_nil (hasClaim : String → Bool) :
    getLanesThatCanBeAccessedFrom hasClaim [] = [] := by
  rw [getLanesThatCanBeAccessedFrom.eq_def]

/-- Unfolding lemma for the accessible-lane recursion on a `cons`. -/
theorem getLanesThatCanBeAccessedFrom_cons (hasClaim : String → Bool)
    (i : String) (n : Option String) (r : Option (List String))
    (c : Option (List Lane)) (rest : List Lane) :
    getLanesThatCanBeAccessedFrom hasClaim (Lane.mk i n r c :: rest) =
      match n with
      | none => getLanesThatCanBeAccessedFrom hasClaim rest
      | some laneName =>
          if laneName = "" then getLanesThatCanBeAccessedFrom hasClaim rest
          else if hasClaim laneName then
            Lane.mk i n r c ::
              ((match c with
                | none => []
                | some childLanes => getLanesThatCanBeAccessedFrom hasClaim childLanes) ++
               getLanesThatCanBeAccessedFrom hasClaim rest)
          else getLanesThatCanBeAccessedFrom hasClaim rest := by
  rw [getLanesThatCanBeAccessedFrom.eq_def]

/-- Unfolding lemma for `lanesOfForest` on `[]`. -/
theorem lanesOfForest_nil : lanesOfForest [] = [] := by
  rw [lanesOfForest.eq_def]

/-- Unfolding lemma for `lanesOfForest` on a `cons`. -/
theorem lanesOfForest_cons (i : String) (n : Option String)
    (r : Option (List String)) (c : Option (List Lane)) (rest : List Lane) :
    lanesOfForest (Lane.mk i n r c :: rest) =
      Lane.mk i n r c ::
        ((match c with
          | none => []
          | some childLanes => lanesOfForest childLanes) ++ lanesOfForest rest) := by
  rw [lanesOfForest.eq_def]

/-- Every lane returned by the accessible-lane recursion comes from the
lane tree and has a non-empty name for which the identity holds a
claim. -/
theorem mem_getLanesThatCanBeAccessedFrom (hasClaim : String → Bool)
    (lanes : List Lane) :
    ∀ l ∈ getLanesThatCanBeAccessedFrom hasClaim lanes,
      l ∈ lanesOfForest lanes ∧
        ∃ laneName, l.name = some laneName ∧ laneName ≠ "" ∧ hasClaim laneName = true := by
  induction lanes using getLanesThatCanBeAccessedFrom.induct hasClaim with
  | case1 => simp [getLanesThatCanBeAccessedFrom_nil]
  | case2 i r c rest ih =>
      intro l hl
      simp only [getLanesThatCanBeAccessedFrom_cons] at hl
      obtain ⟨hmem, h⟩ := ih l hl
      exact ⟨by simp [lanesOfForest_cons, hmem], h⟩
  | case3 i r c rest ih =>
      intro l hl
      simp only [getLanesThatCanBeAccessedFrom_cons, if_pos rfl] at hl
      obtain ⟨hmem, h⟩ := ih l hl
      exact ⟨by simp [lanesOfForest_cons, hmem], h⟩
  | case4 i r c rest laneName hne hclaim ihc ih =>
      intro l hl
      simp only [getLanesThatCanBeAccessedFrom_cons, if_neg hne, if_pos hclaim] at hl
      rcases List.mem_cons.mp hl with hl | hl
      · subst hl
        exact ⟨by simp [lanesOfForest_cons], laneName, rfl, hne, hclaim⟩
      · rcases List.mem_append.mp hl with hl | hl
        · cases c with
          | none => simp at hl
          | some childLanes =>
              obtain ⟨hmem, h⟩ := ihc l hl
              refine ⟨?_, h⟩
              rw [lanesOfForest_cons]
              exact List.mem_cons_of_mem _ (List.mem_append_left _ hmem)
        · obtain ⟨hmem, h⟩ := ih l hl
          refine ⟨?_, h⟩
          rw [lanesOfForest_cons]
          exact List.mem_cons_of_mem _ (List.mem_append_right _ hmem)
  | case5 i r c rest laneName hne hclaim ih =>
      intro l hl
      simp only [getLanesThatCanBeAccessedFrom_cons, if_neg hne, if_neg hclaim] at hl
      obtain ⟨hmem, h⟩ := ih l hl
      refine ⟨?_, h⟩
      rw [lanesOfForest_cons]
      exact List.mem_cons_of_mem _ (List.mem_append_right _ hmem)

/-- Sub-process discovery only ever produces stored process entities. -/
theorem mem_childProcessInstances_mem_processes (env : AdapterEnv) (parentId : String)
    (q : ProcessEntity) (hq : q ∈ childProcessInstances env parentId) :
    q ∈ env.processes := by
  unfold childProcessInstances getCalledProcessesViaCallerIds at hq
  split at hq
  · simp at hq
  · exact List.mem_of_mem_filter hq

/-- The one-level discovery step of `_getSubProcessInstances` is
`childProcessInstances`. -/
theorem childProcessInstances_def (env : AdapterEnv) (parentId : String) :
    getCalledProcessesViaCallerIds env
        ((getCallActivitiesForProcessInstance env parentId).map NodeInstanceEntity.id) =
      childProcessInstances env parentId := rfl

/-- With enough fuel on an acyclic call-activity graph (witnessed by a
rank function that decreases along discovery), `_getSubProcessInstances`
terminates and returns exactly the transitively discovered sub-process
instances. -/
theorem getSubProcessInstances_spec (env : AdapterEnv) (rank : String → Nat)
    (hrank : ∀ p ∈ env.processes, ∀ q ∈ childProcessInstances env p.id,
      rank q.id < rank p.id) :
    ∀ (fuel : Nat) (pid : String), (∃ P ∈ env.processes, P.id = pid) →
      rank pid < fuel →
      ∃ l, getSubProcessInstances env fuel pid = some l ∧
        ∀ q, q ∈ l ↔ ReachesInstance env pid q := by
  intro fuel
  induction fuel with
  | zero => intro pid _ h; omega
  | succ fuel ih =>
      intro pid hpid hlt
      obtain ⟨P, hP, hPid⟩ := hpid
      have hchild : ∀ p ∈ childProcessInstances env pid,
          p ∈ env.processes ∧ rank p.id < fuel := by
        intro p hp
        have hmem := mem_childProcessInstances_mem_processes env pid p hp
        have hlt' := hrank P hP p (by rw [hPid]; exact hp)
        rw [hPid] at hlt'
        exact ⟨hmem, by omega⟩
      have hfold : ∀ qs : List ProcessEntity,
          (∀ p ∈ qs, p ∈ env.processes ∧ rank p.id < fuel) →
          ∃ subs, qs.foldr
              (fun process acc =>
                match getSubProcessInstances env fuel process.id, acc with
                | some subProcesses, some r => some (subProcesses ++ r)
                | _, _ => none) (some []) = some subs ∧
            ∀ x, x ∈ subs ↔ ∃ p ∈ qs, ReachesInstance env p.id x := by
        intro qs hqs
        induction qs with
        | nil => exact ⟨[], rfl, by simp⟩
        | cons p qs ihq =>
            obtain ⟨hpmem, hplt⟩ := hqs p (List.mem_cons_self _ _)
            obtain ⟨subs, hsubs, hsubsiff⟩ :=
              ihq (fun p hp => hqs p (List.mem_cons_of_mem _ hp))
            obtain ⟨lp, hlp, hlpiff⟩ := ih p.id ⟨p, hpmem, rfl⟩ hplt
            refine ⟨lp ++ subs, ?_, ?_⟩
            · simp only [List.foldr_cons, hsubs, hlp]
            · intro x
              simp only [List.mem_append, hlpiff, hsubsiff, List.mem_cons]
              constructor
              · rintro (hx | ⟨p', hp', hx⟩)
                · exact ⟨p, Or.inl rfl, hx⟩
                · exact ⟨p', Or.inr hp', hx⟩
              · rintro ⟨p', hp' | hp', hx⟩
                · exact Or.inl (hp' ▸ hx)
                · exact Or.inr ⟨p', hp', hx⟩
      obtain ⟨subs, hsubs, hiff⟩ := hfold (childProcessInstances env pid) hchild
      refine ⟨childProcessInstances env pid ++ subs, ?_, ?_⟩
      · rw [getSubProcessInstances]
        simp only [childProcessInstances_def, hsubs]
      · intro q
        simp only [List.mem_append, hiff]
        constructor
        · rintro (hq | ⟨p, hp, hq⟩)
          · exact ReachesInstance.direct hq
          · exact ReachesInstance.step hp hq
        · intro hq
          cases hq with
          | direct h => exact Or.inl h
          | step hp hq => exact Or.inr ⟨_, hp, hq⟩

/-- Property reads on a concrete object resolve through `jsField`. -/
theorem jsGetProp_obj (fields : List (String × JsValue)) (name : String) :
    jsGetProp (.obj fields) name = .ok (jsField fields name) := by
  rw [jsGetProp, jsField]
  cases fields.find? (fun f => f.fst == name) <;> rfl

/-- Pre-filtering by a predicate implied by the final filter changes
nothing. -/
theorem filter_filter_filter_of_imp {α : Type} (p q r : α → Bool)
    (himp : ∀ a, p a = true → r a = true) :
    ∀ l : List α, ((l.filter r).filter q).filter p = (l.filter q).filter p := by
  intro l
  induction l with
  | nil => rfl
  | cons a l ih =>
      by_cases hr : r a = true
      · by_cases hq : q a = true
        · simp only [List.filter_cons, if_pos hr, if_pos hq, ih]
        · simp only [List.filter_cons, if_pos hr, if_neg hq, ih]
      · have hp : p a = false := by
          cases hpa : p a
          · rfl
          · exact absurd (himp a hpa) hr
        by_cases hq : q a = true
        · simp only [List.filter_cons, if_neg hr, if_pos hq, hp, Bool.false_eq_true,
            if_false, ih]
        · simp only [List.filter_cons, if_neg hr, if_neg hq, ih]

/-! ## Claim theorems -/

/-- Claim C1, counterexample: a lane set whose single lane `A` itself
references node `N` but carries a child lane set (whose lane `B` does not
reference `N`).  `A` is the innermost — indeed the only — lane referencing
`N`, so the claim predicts `some "A"`; the lookup returns `undefined`,
because a lane with a child lane set delegates to the child set and never
consults its own references or its later siblings. -/
theorem c1_innermostLane_counterexample :
    getClosestLaneIdToElement
      [Lane.mk "A" (some "x") (some ["N"])
        (some [Lane.mk "B" (some "y") (some []) none])] "N" = none := by
  simp [getClosestLaneIdToElement]

/-- Claim C1, amended: once the iteration reaches the first lane carrying
a child lane set (all earlier lanes having no child lane set and not
referencing the node), the lookup returns exactly the recursive lookup on
that child set — the lane's own flow-node references and all later lanes
are never consulted.  In particular a child lane referencing the node wins
over its parent (innermost wins along that path), but the lookup may
return `undefined` even though the parent or a later sibling references
the node. -/
theorem c1_childLaneSetShadowsLookup (pre rest child : List Lane) (A : Lane)
    (n : String)
    (hpre : ∀ l ∈ pre, l.childLaneSet = none ∧
      ∀ refs, l.flowNodeRef = some refs → n ∉ refs)
    (hA : A.childLaneSet = some child) :
    getClosestLaneIdToElement (pre ++ A :: rest) n =
      getClosestLaneIdToElement child n := by
  induction pre with
  | nil =>
      obtain ⟨i, nm, r, c⟩ := A
      simp only [Lane.childLaneSet] at hA
      subst hA
      simp [getClosestLaneIdToElement]
  | cons l pre ih =>
      obtain ⟨hc, hr⟩ := hpre l (by simp)
      obtain ⟨i, nm, r, c⟩ := l
      simp only [Lane.childLaneSet] at hc
      simp only [Lane.flowNodeRef] at hr
      subst hc
      have ih' := ih (fun l hl => hpre l (by simp [hl]))
      cases r with
      | none => simpa [getClosestLaneIdToElement] using ih'
      | some refs =>
          have hrefs : refs.any (fun fid => fid == n) = false := by
            rw [Bool.eq_false_iff]
            intro hany
            rw [List.any_eq_true] at hany
            obtain ⟨x, hx, hxn⟩ := hany
            rw [beq_iff_eq] at hxn
            exact hr refs rfl (hxn ▸ hx)
          simpa [getClosestLaneIdToElement, hrefs] using ih'

/-- Claim C1, witness for the amended statement: lane `A` delegates to its
child lane set, whose lane `B` references `N`, and the lookup indeed
returns `B`. -/
theorem c1_childLaneSetShadowsLookup_witness :
    getClosestLaneIdToElement
        [Lane.mk "A" (some "x") none (some [Lane.mk "B" (some "y") (some ["N"]) none])]
        "N" =
      getClosestLaneIdToElement [Lane.mk "B" (some "y") (some ["N"]) none] "N" ∧
    getClosestLaneIdToElement [Lane.mk "B" (some "y") (some ["N"]) none] "N" =
      some "B" := by
  constructor
  · exact c1_childLaneSetShadowsLookup [] [] [Lane.mk "B" (some "y") (some ["N"]) none]
      (Lane.mk "A" (some "x") none (some [Lane.mk "B" (some "y") (some ["N"]) none])) "N"
      (by simp) rfl
  · simp [getClosestLaneIdToElement]

/-- Claim C2: when the process-model keys of an existing correlation
resolve and the union of the identity's accessible lane ids over those
models is empty, `getUserTasksForCorrelation` fails with Forbidden and
returns no task data. -/
theorem c2_emptyLaneUnion_forbidden (env : AdapterEnv) (fuel : Nat)
    (correlationId : String) (processModelKeys : List String)
    (hkeys : getProcessModelKeysForCorrelation env fuel correlationId =
      some (.ok processModelKeys))
    (hempty : collectAccessibleLaneIds env processModelKeys = .ok []) :
    getUserTasksForCorrelation env fuel correlationId = some (.error .forbidden) := by
  simp [getUserTasksForCorrelation, hkeys, hempty]

/-- Claim C2, witness: the correlation and its process model exist, the
model has a lane, but the identity holds no claims, so the request is
Forbidden. -/
theorem c2_emptyLaneUnion_forbidden_witness :
    getUserTasksForCorrelation adapterEnvC2 1 "c1" = some (.error .forbidden) := by
  apply c2_emptyLaneUnion_forbidden adapterEnvC2 1 "c1" ["pmA"]
  · rfl
  · simp [collectAccessibleLaneIds, getIdsOfLanesThatCanBeAccessed, getProcessModelByKey,
      adapterEnvC2, accessibleLanesOfRootElements, AdapterEnv.hasClaim,
      getLanesThatCanBeAccessedFrom_cons, getLanesThatCanBeAccessedFrom_nil]

/-- Claim C3: a lane whose name is `undefined` or `""` never contributes
its id to the resolved accessible-lane set, whatever claims the identity
holds (the claim check `hasClaim` is universally quantified). -/
theorem c3_unnamedLane_neverAccessible (hasClaim : String → Bool)
    (laneSet : Option (List Lane)) (laneId : String)
    (hbad : ∀ l ∈ lanesOfTree laneSet, l.id = laneId →
      l.name = none ∨ l.name = some "") :
    laneId ∉ (getLanesThatCanBeAccessed hasClaim laneSet).map Lane.id := by
  intro hmem
  rw [List.mem_map] at hmem
  obtain ⟨l, hl, hid⟩ := hmem
  cases laneSet with
  | none => simp [getLanesThatCanBeAccessed] at hl
  | some lanes =>
      rw [getLanesThatCanBeAccessed] at hl
      obtain ⟨hmem', laneName, hnm, hne, _⟩ :=
        mem_getLanesThatCanBeAccessedFrom hasClaim lanes l hl
      rcases hbad l (by simpa [lanesOfTree] using hmem') hid with h' | h' <;>
        rw [hnm] at h'
      · cases h'
      · exact hne (by injection h')

/-- Claim C3, witness: an identity holding every claim still never sees
the unnamed lane `L0` (or the empty-named lane `L2`) in the accessible
set. -/
theorem c3_unnamedLane_neverAccessible_witness :
    "L0" ∉ (getLanesThatCanBeAccessed (fun _ => true)
      (some [Lane.mk "L0" none none none,
             Lane.mk "L1" (some "x") none (some [Lane.mk "L2" (some "") none none])])).map
        Lane.id := by
  apply c3_unnamedLane_neverAccessible
  intro l hl hid
  simp only [lanesOfTree, lanesOfForest_cons, lanesOfForest_nil] at hl
  simp only [List.append_nil, List.nil_append, List.cons_append, List.mem_cons,
    List.not_mem_nil, or_false] at hl
  rcases hl with rfl | rfl | rfl
  · left; rfl
  · simp [Lane.id] at hid
  · right; rfl

/-- Claim C4 (code bug): for a correlation whose only instances are
sub-processes, `_getMainProcessInstanceIdFromCorrelation` does not raise
NotFound — the query by `correlationId` alone is non-empty, `find` yields
`undefined`, and the `.id` read crashes with a `TypeError`. -/
theorem c4_subProcessOnlyCorrelation_typeError :
    getMainProcessInstanceIdFromCorrelation adapterEnvC4 "c1" = .error .jsTypeError ∧
    getMainProcessInstanceIdFromCorrelation adapterEnvC4 "c1" ≠ .error .notFound := by
  refine ⟨rfl, ?_⟩
  intro h
  rw [show getMainProcessInstanceIdFromCorrelation adapterEnvC4 "c1" =
    .error .jsTypeError from rfl] at h
  simp at h

/-- Claim C5: on a finite acyclic call-activity graph (witnessed by a
decreasing rank) and with enough fuel, the correlation resolves to the
main instance first, followed by a list containing exactly the
transitively discovered sub-process instances. -/
theorem c5_correlationInstances_complete (env : AdapterEnv) (rank : String → Nat)
    (fuel : Nat) (correlationId mainProcessInstanceId : String)
    (mainProcessInstance : ProcessEntity)
    (hmain : getMainProcessInstanceIdFromCorrelation env correlationId =
      .ok mainProcessInstanceId)
    (hbyid : getProcessInstanceById env mainProcessInstanceId = .ok mainProcessInstance)
    (hrank : ∀ p ∈ env.processes, ∀ q ∈ childProcessInstances env p.id,
      rank q.id < rank p.id)
    (hfuel : rank mainProcessInstanceId < fuel) :
    ∃ subs, getProcessInstancesForCorrelation env fuel correlationId =
        some (.ok (mainProcessInstance :: subs)) ∧
      ∀ q, q ∈ subs ↔ ReachesInstance env mainProcessInstanceId q := by
  have hmem : mainProcessInstance ∈ env.processes ∧
      mainProcessInstance.id = mainProcessInstanceId := by
    unfold getProcessInstanceById at hbyid
    cases hfind : env.processes.find? (fun p => p.id == mainProcessInstanceId) with
    | none => rw [hfind] at hbyid; cases hbyid
    | some p =>
        rw [hfind] at hbyid
        cases hbyid
        refine ⟨List.mem_of_find?_eq_some hfind, ?_⟩
        have := List.find?_some hfind
        simpa using this
  obtain ⟨l, hl, hiff⟩ := getSubProcessInstances_spec env rank hrank fuel
    mainProcessInstanceId ⟨mainProcessInstance, hmem.1, hmem.2⟩ hfuel
  refine ⟨l, ?_, hiff⟩
  simp only [getProcessInstancesForCorrelation, hmain, hbyid, hl]

/-- Claim C5, witness: the spec's example — a main instance with two
call-activity children, one of which spawns one nested sub-instance —
yields exactly the 4 instances, main first. -/
theorem c5_correlationInstances_complete_witness :
    (∃ subs, getProcessInstancesForCorrelation adapterEnvC5 3 "corr" =
        some (.ok (mainC5 :: subs)) ∧
      ∀ q, q ∈ subs ↔ ReachesInstance adapterEnvC5 "m" q) ∧
    getProcessInstancesForCorrelation adapterEnvC5 3 "corr" =
      some (.ok [mainC5, subC5a, subC5b, subC5c]) := by
  constructor
  · exact c5_correlationInstances_complete adapterEnvC5 rankC5 3 "corr" "m" mainC5
      rfl rfl (by decide) (by decide)
  · rfl

/-- Claim C6: in the aggregation over a correlation's process instances, a
Forbidden error for one instance removes exactly that instance's
contribution while the loop continues, whereas any other error — provided
no earlier instance already aborted — propagates as the result of the
whole aggregation, discarding every partial contribution. -/
theorem c6_forbiddenSkipped_othersAbort (env : AdapterEnv)
    (before : List ProcessEntity) (p : ProcessEntity) (after : List ProcessEntity) :
    (getAccessibleUserTasksForProcessInstance env p = .error .forbidden →
      getUserTasksForInstances env (before ++ p :: after) =
        getUserTasksForInstances env (before ++ after)) ∧
    (∀ e, getAccessibleUserTasksForProcessInstance env p = .error e →
      e ≠ .forbidden →
      (∀ q ∈ before, getAccessibleUserTasksForProcessInstance env q = .error .forbidden ∨
        ∃ ts, getAccessibleUserTasksForProcessInstance env q = .ok ts) →
      getUserTasksForInstances env (before ++ p :: after) = .error e) := by
  constructor
  · intro hp
    induction before with
    | nil => simp [getUserTasksForInstances, hp]
    | cons q before ih =>
        simp only [List.cons_append, getUserTasksForInstances, List.append_eq]
        rw [ih]
  · intro e hp hne hbefore
    induction before with
    | nil =>
        cases e with
        | forbidden => exact absurd rfl hne
        | badRequest => simp [getUserTasksForInstances, hp]
        | notFound => simp [getUserTasksForInstances, hp]
        | unprocessableEntity => simp [getUserTasksForInstances, hp]
        | internalServerError => simp [getUserTasksForInstances, hp]
        | jsTypeError => simp [getUserTasksForInstances, hp]
    | cons q before ih =>
        have ih' := ih (fun q hq => hbefore q (List.mem_cons_of_mem _ hq))
        rcases hbefore q (List.mem_cons_self _ _) with hq | ⟨ts, hq⟩
        · simp only [List.cons_append, getUserTasksForInstances, List.append_eq, hq]
          exact ih'
        · simp only [List.cons_append, getUserTasksForInstances, List.append_eq, hq, ih']

/-- Claim C6, witness: a Forbidden instance contributes nothing and the
aggregation succeeds with the remaining (empty) instances, while a
NotFound instance makes the whole aggregation fail. -/
theorem c6_forbiddenSkipped_othersAbort_witness :
    getUserTasksForInstances adapterEnvC6a [processC6a] = .ok [] ∧
    getUserTasksForInstances adapterEnvC6b [processC6b] = .error .notFound := by
  constructor
  · have h := (c6_forbiddenSkipped_othersAbort adapterEnvC6a [] processC6a []).1
      (by simp [getAccessibleUserTasksForProcessInstance, getUserTasksForProcessInstance,
        getIdsOfLanesThatCanBeAccessed, getProcessModelByKey, accessibleLanesOfRootElements,
        AdapterEnv.hasClaim, getLanesThatCanBeAccessedFrom_cons,
        getLanesThatCanBeAccessedFrom_nil, adapterEnvC6a, processC6a])
    simpa [getUserTasksForInstances] using h
  · have h := (c6_forbiddenSkipped_othersAbort adapterEnvC6b [] processC6b []).2 .notFound
      (by simp [getAccessibleUserTasksForProcessInstance, getUserTasksForProcessInstance,
        getIdsOfLanesThatCanBeAccessed, getProcessModelByKey, adapterEnvC6b, processC6b])
      (by simp) (by simp)
    simpa using h

/-- Claim C7: a finish-task payload whose `formFields` is `undefined`, of
non-object type, an array, or an object with zero keys makes
`finishUserTask` fail with BadRequest, with an empty event trace — nothing
is published and no completion subscription is created. -/
theorem c7_malformedFormFields_badRequest (env : ServiceEnv)
    (processModelId correlationId userTaskId : String)
    (fields : List (String × JsValue)) (tasks : List ConsumerApiUserTask)
    (task : ConsumerApiUserTask)
    (hlist : getUserTasksForProcessModelInCorrelation env processModelId correlationId =
      .ok tasks)
    (hfind : tasks.find? (fun t => t.key == userTaskId) = some task)
    (hbad : jsField fields "formFields" = .undefined ∨
            jsTypeof (jsField fields "formFields") ≠ "object" ∨
            jsIsArray (jsField fields "formFields") = true ∨
            jsField fields "formFields" = .obj []) :
    finishUserTask env processModelId correlationId userTaskId (.obj fields) =
      (.error .badRequest, []) := by
  have hval : getUserTaskResultFromUserTaskConfig (.obj fields) = .error .badRequest := by
    rw [getUserTaskResultFromUserTaskConfig.eq_def]
    simp only [jsGetProp_obj]
    rcases hbad with h | h | h | h
    · rw [h]; rfl
    · have hb : (jsTypeof (jsField fields "formFields") != "object") = true :=
        bne_iff_ne.mpr h
      simp [hb]
    · simp [h]
    · rw [h]; rfl
  simp only [finishUserTask, hlist, hfind, hval]

/-- Claim C7, witness: finishing the visible task with a numeric
`formFields` fails with BadRequest and produces no event-aggregator
interaction. -/
theorem c7_malformedFormFields_badRequest_witness :
    finishUserTask serviceEnvExample "pm" "c" "ut1"
        (.obj [("formFields", .num 1)]) = (.error .badRequest, []) :=
  c7_malformedFormFields_badRequest serviceEnvExample "pm" "c" "ut1"
    [("formFields", .num 1)] [consumerUserTaskExample] consumerUserTaskExample
    rfl rfl (Or.inr (Or.inl (by decide)))

/-- Claim C8: in every successful run of `finishUserTask` (task visible,
payload valid), the event trace is exactly the subscription to the task's
completion (`finished`) channel followed by the publish on its `finish`
channel — the subscription is registered strictly before the publish. -/
theorem c8_subscribeBeforePublish (env : ServiceEnv)
    (processModelId correlationId userTaskId : String) (payload validated : JsValue)
    (tasks : List ConsumerApiUserTask) (task : ConsumerApiUserTask)
    (hlist : getUserTasksForProcessModelInCorrelation env processModelId correlationId =
      .ok tasks)
    (hfind : tasks.find? (fun t => t.key == userTaskId) = some task)
    (hok : getUserTaskResultFromUserTaskConfig payload = .ok validated) :
    finishUserTask env processModelId correlationId userTaskId payload =
      (.ok (),
       [.subscribeOnce ("/processengine/node/" ++ task.id ++ "/finished"),
        .publish ("/processengine/node/" ++ task.id ++ "/finish")]) := by
  simp only [finishUserTask, hlist, hfind, hok]

/-- Claim C8, witness: a concrete successful finish subscribes on the
`finished` channel before publishing on the `finish` channel. -/
theorem c8_subscribeBeforePublish_witness :
    finishUserTask serviceEnvExample "pm" "c" "ut1"
        (.obj [("formFields", .obj [("a", .str "v")])]) =
      (.ok (),
       [.subscribeOnce "/processengine/node/ut1/finished",
        .publish "/processengine/node/ut1/finish"]) :=
  c8_subscribeBeforePublish serviceEnvExample "pm" "c" "ut1"
    (.obj [("formFields", .obj [("a", .str "v")])]) (.obj [("a", .str "v")])
    [consumerUserTaskExample] consumerUserTaskExample rfl rfl rfl

/-- Claim C9: `getProcessResultForCorrelation` is built exclusively from
caller-less end-event instances — removing every instance whose token
carries a caller never changes the result — and on the example
correlation with three end-event instances, one of them with a caller,
exactly the two caller-less payloads are merged. -/
theorem c9_processResult_callerlessOnly :
    (∀ (env : ServiceEnv) (correlationId processModelId : String),
      getProcessResultForCorrelation (dropCallerfulInstances env) correlationId
          processModelId =
        getProcessResultForCorrelation env correlationId processModelId) ∧
    getProcessResultForCorrelation serviceEnvC9 "c" "pm" =
      .ok [("a", .num 1), ("b", .num 2)] := by
  constructor
  · intro env correlationId processModelId
    rw [getProcessResultForCorrelation, getProcessResultForCorrelation]
    have hpm : getProcessModelById (dropCallerfulInstances env) processModelId =
        getProcessModelById env processModelId := rfl
    rw [hpm]
    cases getProcessModelById env processModelId with
    | error e => rfl
    | ok processModel =>
        simp only [queryByCorrelation, dropCallerfulInstances]
        rw [filter_filter_filter_of_imp]
        intro fi h
        simp only [Bool.and_eq_true] at h
        exact h.1.2
  · rfl

/-- Claim C10: a `formFields` that is exactly `null` passes the
not-an-object validation (it is not `undefined`, has `typeof` object and
is not an array), and the subsequent `Object.keys(null)` raises a
`TypeError` — `finishUserTask` then fails with an error outside the
BadRequest/NotFound/Forbidden/UnprocessableEntity taxonomy and publishes
nothing. -/
theorem c10_nullFormFields_typeError :
    getUserTaskResultFromUserTaskConfig (.obj [("formFields", .null)]) =
      .error .jsTypeError ∧
    finishUserTask serviceEnvExample "pm" "c" "ut1" (.obj [("formFields", .null)]) =
      (.error .jsTypeError, []) :=
  ⟨rfl, rfl⟩
